import Mathlib

/-!
Verification of the HP-90EPC serial reader core (Go sources under
`src/reader/reader.go` and `src/reader/manager.go`), shallowly embedded
in Lean 4.  Bytes are modelled as `Nat` (values below 256 in practice),
Go `float64` arithmetic on exact decimal scale factors as `ℚ`,
`time.Time`/`time.Duration` as `Int` nanoseconds (`0` = zero time).
-/

namespace HP90

/-! ## Frame decoder (`reader.go`, `parseDigit` / `decodeFrame`) -/

/-- `parseDigit` from reader.go: clear bit 7 (`b &^= 1 << 7`), then map the
7-segment pattern to a digit, `-1` when unrecognized. -/
def parseDigit (b : Nat) : Int :=
  let b := b &&& 0x7F
  if b = 0x7d then 0
  else if b = 0x05 then 1
  else if b = 0x5b then 2
  else if b = 0x1f then 3
  else if b = 0x27 then 4
  else if b = 0x3e then 5
  else if b = 0x7e then 6
  else if b = 0x15 then 7
  else if b = 0x7f then 8
  else if b = 0x3f then 9
  else -1

/-- One digit byte assembled from a byte pair: low nibble of the first byte
becomes the high nibble, low nibble of the second byte the low nibble
(`db := (hi << 4) | lo` in decodeFrame). -/
def digitByte (hiB loB : Nat) : Nat :=
  ((hiB &&& 0x0F) <<< 4) ||| (loB &&& 0x0F)

/-- The four digit bytes of a frame, from byte pairs (1,2),(3,4),(5,6),(7,8). -/
def digitBytesOf (b1 b2 b3 b4 b5 b6 b7 b8 : Nat) : List Nat :=
  [digitByte b1 b2, digitByte b3 b4, digitByte b5 b6, digitByte b7 b8]

/-- The four parsed digits (each `-1` when unrecognized). -/
def digitsOf (b1 b2 b3 b4 b5 b6 b7 b8 : Nat) : List Int :=
  (digitBytesOf b1 b2 b3 b4 b5 b6 b7 b8).map parseDigit

/-- `numeric` in decodeFrame: all four digits recognized. -/
def numericOf (b1 b2 b3 b4 b5 b6 b7 b8 : Nat) : Bool :=
  (digitsOf b1 b2 b3 b4 b5 b6 b7 b8).all (fun d => 0 ≤ d)

/-- `intval` in decodeFrame: the 4-digit integer, computed only when numeric. -/
def intvalOf (b1 b2 b3 b4 b5 b6 b7 b8 : Nat) : Int :=
  if numericOf b1 b2 b3 b4 b5 b6 b7 b8 then
    (digitsOf b1 b2 b3 b4 b5 b6 b7 b8).foldl (fun a d => a * 10 + d) 0
  else 0

/-- `sign` in decodeFrame: byte1 bit3 set means negative. -/
def signOf (b1 : Nat) : ℚ := if b1 &&& 8 ≠ 0 then -1 else 1

/-- `div` in decodeFrame: decimal-point divisor from bit3 of bytes 3/5/7. -/
def divOf (b3 b5 b7 : Nat) : ℚ :=
  if b3 &&& 8 ≠ 0 then 1000
  else if b5 &&& 8 ≠ 0 then 100
  else if b7 &&& 8 ≠ 0 then 10
  else 1

/-- The five sequential prefix-scale `if` statements of decodeFrame
(lines 238-252): each set flag applies its own factor, one after the
other; the flags are not mutually exclusive in the code. -/
def applyPrefixScale (v : ℚ) (b9 b10 : Nat) : ℚ :=
  let v := if b9 &&& 4 ≠ 0 then v / 1000000000 else v
  let v := if b9 &&& 8 ≠ 0 then v / 1000000 else v
  let v := if b10 &&& 8 ≠ 0 then v / 1000 else v
  let v := if b9 &&& 2 ≠ 0 then v * 1000 else v
  let v := if b10 &&& 2 ≠ 0 then v * 1000000 else v
  v

/-- `isCelsius` in decodeFrame: byte13 low-nibble bit 2. -/
def isCelsiusOf (b13 : Nat) : Bool := b13 &&& 0x04 ≠ 0

/-- `mode` in decodeFrame: "AC"/"DC" from byte0 bits 3/2, overwritten to ""
in the Celsius branch of the unit switch. -/
def modeOf (b0 b13 : Nat) : String :=
  if isCelsiusOf b13 then ""
  else if b0 &&& 8 ≠ 0 then "AC"
  else if b0 &&& 4 ≠ 0 then "DC"
  else ""

/-- The base-unit `switch` of decodeFrame (first match wins). -/
def unitBaseOf (b10 b11 b12 b13 : Nat) : String :=
  if isCelsiusOf b13 then "°C"
  else if b10 &&& 4 ≠ 0 then "%"
  else if b11 &&& 8 ≠ 0 then "F"
  else if b11 &&& 4 ≠ 0 then "Ohm"
  else if b12 &&& 8 ≠ 0 then "A"
  else if b12 &&& 4 ≠ 0 then "V"
  else if b12 &&& 2 ≠ 0 then "Hz"
  else ""

/-- The prefix-letter `switch` of decodeFrame (first match wins:
mega, kilo, milli, micro, nano). -/
def prefixLetterOf (b9 b10 : Nat) : String :=
  if b10 &&& 2 ≠ 0 then "M"
  else if b9 &&& 2 ≠ 0 then "k"
  else if b10 &&& 8 ≠ 0 then "m"
  else if b9 &&& 8 ≠ 0 then "µ"
  else if b9 &&& 4 ≠ 0 then "n"
  else ""

/-- `fullUnit` in decodeFrame: prefix letter suffixed to the base unit except
for "", "%" and "°C"; then the `if fullUnit == "MV" { fullUnit = "mV" }`
normalization. -/
def fullUnitOf (b9 b10 b11 b12 b13 : Nat) : String :=
  let unit := unitBaseOf b10 b11 b12 b13
  let fu := if unit ≠ "" ∧ unit ≠ "%" ∧ unit ≠ "°C"
            then prefixLetterOf b9 b10 ++ unit else unit
  if fu = "MV" then "mV" else fu

/-- One decimal digit (0-9) rendered as a character, as `%d` does. -/
def digitChar (d : Int) : Char := Char.ofNat (48 + d.toNat)

/-- `valueStr` in decodeFrame: "????" when non-numeric; otherwise the four
digits with the decimal point inserted per bit3 of bytes 3/5/7 and a "-"
sign prefix when negative. -/
def valueStrOf (b1 b2 b3 b4 b5 b6 b7 b8 : Nat) : String :=
  if numericOf b1 b2 b3 b4 b5 b6 b7 b8 then
    let ds := (digitsOf b1 b2 b3 b4 b5 b6 b7 b8).map digitChar
    let c0 := ds.getD 0 '0'
    let c1 := ds.getD 1 '0'
    let c2 := ds.getD 2 '0'
    let c3 := ds.getD 3 '0'
    let s :=
      if b3 &&& 8 ≠ 0 then String.mk [c0, '.', c1, c2, c3]
      else if b5 &&& 8 ≠ 0 then String.mk [c0, c1, '.', c2, c3]
      else if b7 &&& 8 ≠ 0 then String.mk [c0, c1, c2, '.', c3]
      else String.mk [c0, c1, c2, c3]
    if b1 &&& 8 ≠ 0 then "-" ++ s else s
  else "????"

/-- `auto` in decodeFrame: byte0 bit1. -/
def autoOf (b0 : Nat) : Bool := b0 &&& 2 ≠ 0

/-- `isHold` in decodeFrame: byte11 bit0. -/
def holdOf (b11 : Nat) : Bool := b11 &&& 1 ≠ 0

/-- `isRel` in decodeFrame: byte11 bit1. -/
def relOf (b11 : Nat) : Bool := b11 &&& 2 ≠ 0

/-- `lowBatt` in decodeFrame: byte12 bit0. -/
def lowBattOf (b12 : Nat) : Bool := b12 &&& 1 ≠ 0

/-- One hex digit, uppercase, as `%X` renders it. -/
def hexDigit (n : Nat) : Char :=
  if n < 10 then Char.ofNat (48 + n) else Char.ofNat (55 + n)

/-- One byte as two uppercase hex digits (`%02X`). -/
def hexByte (b : Nat) : String :=
  String.mk [hexDigit (b / 16 % 16), hexDigit (b % 16)]

/-- `raw_hex`: the 14 bytes space-separated in hex. -/
def rawHexOf (bs : List Nat) : String :=
  String.intercalate " " (bs.map hexByte)

/-- The Measurement record of `model.Measurement` as decodeFrame fills it
(`Value` is `*float64`, modelled as `Option ℚ`). -/
structure Measurement where
  value : Option ℚ
  valueStr : String
  unit : String
  mode : String
  auto : Bool
  hold : Bool
  rel : Bool
  lowBatt : Bool
  rawHex : String
  deriving Repr, DecidableEq

/-- The body of `decodeFrame` on the 14 bytes of a frame. -/
def decode14 (x0 x1 x2 x3 x4 x5 x6 x7 x8 x9 x10 x11 x12 x13 : Nat) :
    Measurement :=
  let numeric := numericOf x1 x2 x3 x4 x5 x6 x7 x8
  let intval := intvalOf x1 x2 x3 x4 x5 x6 x7 x8
  let floatval := (intval : ℚ) / divOf x3 x5 x7 * signOf x1
  let floatval := applyPrefixScale floatval x9 x10
  { value := if numeric then some floatval else none
    valueStr := valueStrOf x1 x2 x3 x4 x5 x6 x7 x8
    unit := fullUnitOf x9 x10 x11 x12 x13
    mode := modeOf x0 x13
    auto := autoOf x0
    hold := holdOf x11
    rel := relOf x11
    lowBatt := lowBattOf x12
    rawHex := rawHexOf [x0, x1, x2, x3, x4, x5, x6, x7, x8, x9, x10, x11, x12, x13] }

/-- `decodeFrame`: `nil` unless the input is exactly 14 bytes
(`if len(b) != 14 { return nil }`), then the decode of the 14 bytes. -/
def decodeFrame (b : List Nat) : Option Measurement :=
  if b.length = 14 then
    some (decode14 (b.getD 0 0) (b.getD 1 0) (b.getD 2 0) (b.getD 3 0)
      (b.getD 4 0) (b.getD 5 0) (b.getD 6 0) (b.getD 7 0) (b.getD 8 0)
      (b.getD 9 0) (b.getD 10 0) (b.getD 11 0) (b.getD 12 0) (b.getD 13 0))
  else none

/-! ## Frame synchronizer (`reader.go`, `RunLoop` lines 90-126)

The Go loop keeps a 14-byte scratch array `frame` and a cursor `idx`; the
state is modelled as the filled prefix `frame[0..idx)` (a list of length
`idx`). -/

/-- Processing of one byte by the synchronizer: returns the new state and
the completed frame, if one was just finished.  `want` is
`byte((idx+1) << 4)`. -/
def syncByte (st : List Nat) (b : Nat) : List Nat × Option (List Nat) :=
  if b &&& 0xF0 = (st.length + 1) <<< 4 then
    if (st ++ [b]).length = 14 then ([], some (st ++ [b]))
    else (st ++ [b], none)
  else if b &&& 0xF0 = 0x10 then ([b], none)
  else ([], none)

/-- Processing of a chunk of bytes, as the inner `for i := 0; i < n` loop
does: returns the final state and the frames emitted, in order. -/
def syncBytes (st : List Nat) : List Nat → List Nat × List (List Nat)
  | [] => (st, [])
  | b :: rest =>
    let p := syncByte st b
    let q := syncBytes p.1 rest
    (q.1, p.2.toList ++ q.2)

/-- Processing of a sequence of read chunks (the successive `s.Read`
results), state persisting across chunks. -/
def syncChunks (st : List Nat) : List (List Nat) → List Nat × List (List Nat)
  | [] => (st, [])
  | c :: rest =>
    let p := syncBytes st c
    let q := syncChunks p.1 rest
    (q.1, p.2 ++ q.2)

/-! ## Connection manager (`manager.go`) -/

/-- `reader.Status`: `last_frame_at` is `time.Time` modelled as `Int`
nanoseconds with `0` the zero time (`IsZero`). -/
structure Status where
  port : String
  baud : Int
  connected : Bool
  lastFrameAt : Int
  lastError : String
  deriving Repr, DecidableEq

/-- The manager fields the claims depend on: `running`, whether a cancel
function is installed (`cancel != nil`), the staleness threshold and the
status record. -/
structure Manager where
  running : Bool
  hasCancel : Bool
  staleAfter : Int
  status : Status
  deriving Repr, DecidableEq

/-- `NewManager`: a non-positive staleness threshold defaults to 3 s
(3e9 ns). -/
def newManager (stale : Int) : Manager :=
  { running := false
    hasCancel := false
    staleAfter := if stale ≤ 0 then 3000000000 else stale
    status := { port := "", baud := 0, connected := false, lastFrameAt := 0,
                lastError := "" } }

/-- `Manager.GetStatus` at the instant `now`: copies the status record and
recomputes `Connected` from `LastFrameAt`/`LastError` (`time.Since x` is
`now - x`; the stored `Connected` value is never consulted). -/
def getStatus (m : Manager) (now : Int) : Status :=
  let st := m.status
  if st.lastFrameAt ≠ 0 ∧ now - st.lastFrameAt ≤ m.staleAfter ∧
      st.lastError = "" then
    { st with connected := true }
  else
    { st with connected := false }

/-- What `Manager.Start` returns and does synchronously (before the
spawned goroutine runs): the updated manager, whether a previously active
loop's cancel function was invoked, and the returned error (always `nil`). -/
structure StartResult where
  mgr : Manager
  cancelledPrev : Bool
  err : Option String
  deriving Repr, DecidableEq

/-- `Manager.Start`: cancels the previous loop when one is running, installs
a fresh cancel function, marks running, sets port/baud, sets the stored
`Connected` false and `LastError` empty — and leaves `LastFrameAt` as it
was.  Returns `nil`. -/
def start (m : Manager) (port : String) (baud : Int) : StartResult :=
  { mgr := { running := true
             hasCancel := true
             staleAfter := m.staleAfter
             status := { port := port, baud := baud, connected := false,
                         lastFrameAt := m.status.lastFrameAt,
                         lastError := "" } }
    cancelledPrev := m.running && m.hasCancel
    err := none }

/-- What `Manager.Stop` does: the updated manager and whether a cancel
function was invoked. -/
structure StopResult where
  mgr : Manager
  cancelled : Bool
  deriving Repr, DecidableEq

/-- `Manager.Stop`: invokes the cancel function when installed, clears
`running` and the stored `Connected` flag; everything else unchanged. -/
def stop (m : Manager) : StopResult :=
  { mgr := { m with running := false
                    status := { m.status with connected := false } }
    cancelled := m.hasCancel }

/-! ## Connection loop (`reader.go`, `RunLoop` outer structure)

A run of `RunLoop` is driven by the outcomes of the successive
`serial.OpenPort` and `s.Read` calls.  The context is cancelled when the
script is exhausted; that is the only way `RunLoop` returns, and it then
returns `ctx.Err()`, i.e. `context.Canceled`. -/

/-- Outcome of one `s.Read` call that does not end the streaming session. -/
inductive ReadEvent where
  | data (bs : List Nat)
  | zero
  deriving Repr, DecidableEq

/-- One pass of the outer reconnect loop: either `serial.OpenPort` fails,
or it succeeds and the session streams `reads` until a `Read` returns the
I/O error `errMsg`. -/
inductive Session where
  | openFail
  | stream (reads : List ReadEvent) (errMsg : String)
  deriving Repr, DecidableEq

/-- The observable trace of a `RunLoop` run: frames handed to
`decodeFrame`, backoff waits in ms in order, number of `s.Close` calls,
number of successful opens, and `RunLoop`'s return value. -/
structure LoopTrace where
  frames : List (List Nat)
  backoffsMs : List Nat
  closes : Nat
  opens : Nat
  retErr : String
  deriving Repr, DecidableEq

/-- `context.Canceled`'s error text. -/
def ctxCanceled : String := "context canceled"

/-- One streaming session's reads fed through the synchronizer
(`frame`/`idx` are declared inside the session closure, so every session
starts at cursor 0). -/
def runSession (st : List Nat) : List ReadEvent → List Nat × List (List Nat)
  | [] => (st, [])
  | .zero :: rest => runSession st rest
  | .data bs :: rest =>
    let p := syncBytes st bs
    let q := runSession p.1 rest
    (q.1, p.2 ++ q.2)

/-- `RunLoop` against a script of open/read outcomes.  An open failure
costs a 600 ms backoff; a session ending in an I/O error closes the handle
(`defer s.Close()`), costs a 400 ms backoff, and the outer loop retries —
the read error itself is dropped.  When the script ends the context is
cancelled and `RunLoop` returns `ctx.Err()`. -/
def runLoopGo : List Session → LoopTrace
  | [] => { frames := [], backoffsMs := [], closes := 0, opens := 0,
            retErr := ctxCanceled }
  | .openFail :: rest =>
    let t := runLoopGo rest
    { t with backoffsMs := 600 :: t.backoffsMs }
  | .stream reads _ :: rest =>
    let p := runSession [] reads
    let t := runLoopGo rest
    { frames := p.2 ++ t.frames
      backoffsMs := 400 :: t.backoffsMs
      closes := t.closes + 1
      opens := t.opens + 1
      retErr := t.retErr }

/-- The goroutine body in `Manager.Start` (manager.go lines 92-97): after
`RunLoop` returns `retErr`, `LastError` is overwritten only when the error
is non-nil and not `context.Canceled`. -/
def recordAfterRunLoop (lastError retErr : String) : String :=
  if retErr ≠ "" ∧ retErr ≠ ctxCanceled then retErr else lastError

/-- The synthetic frame of §8 of the spec: digits 1,2,3,4, decimal point at
the tenths position (byte7 bit3), DC (byte0 bit2), Volt (byte12 bit2),
positive sign, no prefix flags, correct positional tags. -/
def frame1234 : List Nat :=
  [0x14, 0x20, 0x35, 0x45, 0x5B, 0x61, 0x7F, 0x8A, 0x97,
   0xA0, 0xB0, 0xC0, 0xD4, 0xE0]

/-! ## Helper lemmas -/

/-- The positional-tag property of a (partial) frame. -/
def tagsOK (l : List Nat) : Prop :=
  ∀ i, i < l.length → l.getD i 0 &&& 0xF0 = (i + 1) <<< 4

/-- The synchronizer invariant: the filled prefix is shorter than a frame
and its tags are the expected ones. -/
def goodPartial (st : List Nat) : Prop := st.length < 14 ∧ tagsOK st

lemma goodPartial_nil : goodPartial [] :=
  ⟨by decide, fun i h => by simp at h⟩

lemma tagsOK_singleton {b : Nat} (hb : b &&& 0xF0 = 0x10) : tagsOK [b] := by
  intro i hi
  simp only [List.length_cons, List.length_nil] at hi
  have h0 : i = 0 := by omega
  subst h0
  simpa using hb

lemma tagsOK_append {l : List Nat} {b : Nat} (hl : tagsOK l)
    (hb : b &&& 0xF0 = (l.length + 1) <<< 4) : tagsOK (l ++ [b]) := by
  intro i hi
  simp only [List.length_append, List.length_cons, List.length_nil] at hi
  rcases Nat.lt_or_ge i l.length with h | h
  · rw [List.getD_append _ _ _ _ h]
    exact hl i h
  · have hil : i = l.length := by omega
    subst hil
    rw [List.getD_append_right _ _ _ _ (Nat.le_refl _)]
    simpa using hb

lemma syncByte_good {st : List Nat} (h : goodPartial st) (b : Nat) :
    goodPartial (syncByte st b).1 ∧
      ∀ f, (syncByte st b).2 = some f → f.length = 14 ∧ tagsOK f := by
  obtain ⟨hlen, htags⟩ := h
  unfold syncByte
  split_ifs with h1 h2 h3
  · refine ⟨goodPartial_nil, fun f hf => ?_⟩
    simp only [Option.some.injEq] at hf
    subst hf
    exact ⟨h2, tagsOK_append htags h1⟩
  · refine ⟨⟨?_, tagsOK_append htags h1⟩, by simp⟩
    simp only [List.length_append, List.length_cons, List.length_nil] at h2 ⊢
    omega
  · exact ⟨⟨by simp, tagsOK_singleton h3⟩, by simp⟩
  · exact ⟨goodPartial_nil, by simp⟩

lemma syncBytes_good {st : List Nat} (h : goodPartial st) (bs : List Nat) :
    goodPartial (syncBytes st bs).1 ∧
      ∀ f ∈ (syncBytes st bs).2, f.length = 14 ∧ tagsOK f := by
  induction bs generalizing st with
  | nil => exact ⟨h, by simp [syncBytes]⟩
  | cons b rest ih =>
    obtain ⟨h1, h2⟩ := syncByte_good h b
    obtain ⟨h3, h4⟩ := ih h1
    refine ⟨by simpa [syncBytes] using h3, ?_⟩
    intro f hf
    simp only [syncBytes, List.mem_append] at hf
    rcases hf with hf | hf
    · rcases ho : (syncByte st b).2 with _ | g
      · simp [ho] at hf
      · rw [ho] at hf
        simp only [Option.toList_some, List.mem_singleton] at hf
        subst hf
        exact h2 f ho
    · exact h4 f hf

lemma syncChunks_good {st : List Nat} (h : goodPartial st)
    (cs : List (List Nat)) :
    goodPartial (syncChunks st cs).1 ∧
      ∀ f ∈ (syncChunks st cs).2, f.length = 14 ∧ tagsOK f := by
  induction cs generalizing st with
  | nil => exact ⟨h, by simp [syncChunks]⟩
  | cons c rest ih =>
    obtain ⟨h1, h2⟩ := syncBytes_good h c
    obtain ⟨h3, h4⟩ := ih h1
    refine ⟨by simpa [syncChunks] using h3, ?_⟩
    intro f hf
    simp only [syncChunks, List.mem_append] at hf
    rcases hf with hf | hf
    · exact h2 f hf
    · exact h4 f hf

lemma syncBytes_append (st : List Nat) (xs ys : List Nat) :
    syncBytes st (xs ++ ys) =
      ((syncBytes (syncBytes st xs).1 ys).1,
       (syncBytes st xs).2 ++ (syncBytes (syncBytes st xs).1 ys).2) := by
  induction xs generalizing st with
  | nil => simp [syncBytes]
  | cons b rest ih => simp [syncBytes, ih]

lemma syncChunks_flatten (st : List Nat) (cs : List (List Nat)) :
    syncChunks st cs = syncBytes st cs.flatten := by
  induction cs generalizing st with
  | nil => simp [syncChunks, syncBytes]
  | cons c rest ih => simp [syncChunks, List.flatten, syncBytes_append, ih]

lemma runLoopGo_retErr (script : List Session) :
    (runLoopGo script).retErr = ctxCanceled := by
  induction script with
  | nil => rfl
  | cons s rest ih => cases s <;> simp [runLoopGo, ih]

/-! ## Claim theorems -/

/-- Claim C1: for every input byte stream, in chunks of any size, the
synchronizer passes a 14-byte frame to the decoder only when its 14 bytes
carry the ascending positional tags 0x10..0xE0 in order; frames do not
depend on the chunking; and a tag mismatch emits nothing and discards the
in-progress frame state (keeping at most the mismatching byte itself as a
new frame start). -/
theorem frame_sync_emits_only_tagged_frames :
    (∀ cs : List (List Nat), ∀ f ∈ (syncChunks [] cs).2,
        f.length = 14 ∧ ∀ i, i < 14 → f.getD i 0 &&& 0xF0 = (i + 1) <<< 4) ∧
    (∀ (st : List Nat) (cs : List (List Nat)),
        (syncChunks st cs).2 = (syncBytes st cs.flatten).2) ∧
    (∀ (st : List Nat) (b : Nat), b &&& 0xF0 ≠ (st.length + 1) <<< 4 →
        (syncByte st b).2 = none ∧
          ((syncByte st b).1 = [] ∨ (syncByte st b).1 = [b])) := by
  refine ⟨?_, ?_, ?_⟩
  · intro cs f hf
    obtain ⟨hlen, htags⟩ := (syncChunks_good goodPartial_nil cs).2 f hf
    exact ⟨hlen, fun i hi => htags i (by omega)⟩
  · intro st cs
    rw [syncChunks_flatten]
  · intro st b hb
    unfold syncByte
    rw [if_neg hb]
    split_ifs <;> simp

/-- Witness for C1 at concrete inputs: the single chunk holding the valid
frame `frame1234` makes the synchronizer emit exactly that frame, whose
tags the theorem then certifies; and the byte 0x00 mismatches the empty
state and leaves the state empty with no emission. -/
theorem frame_sync_emits_only_tagged_frames_witness :
    (frame1234.length = 14 ∧
      ∀ i, i < 14 → frame1234.getD i 0 &&& 0xF0 = (i + 1) <<< 4) ∧
    ((syncByte [] 0).2 = none ∧
      ((syncByte [] 0).1 = [] ∨ (syncByte [] 0).1 = [0])) :=
  ⟨frame_sync_emits_only_tagged_frames.1 [frame1234] frame1234 (by decide),
   frame_sync_emits_only_tagged_frames.2.2 [] 0 (by decide)⟩

/-- Claim C10: `decodeFrame` is total on 14-byte inputs (it always returns
a Measurement), returns `nil` exactly on inputs whose length differs
from 14, and hence never fails on a frame emitted by the synchronizer. -/
theorem decodeFrame_total_on_frames :
    (∀ b : List Nat, b.length = 14 → (decodeFrame b).isSome = true) ∧
    (∀ b : List Nat, b.length ≠ 14 → decodeFrame b = none) ∧
    (∀ cs : List (List Nat), ∀ f ∈ (syncChunks [] cs).2,
        (decodeFrame f).isSome = true) := by
  have htot : ∀ b : List Nat, b.length = 14 → (decodeFrame b).isSome = true := by
    intro b hb
    simp [decodeFrame, hb]
  refine ⟨htot, ?_, ?_⟩
  · intro b hb
    simp [decodeFrame, hb]
  · intro cs f hf
    exact htot f ((syncChunks_good goodPartial_nil cs).2 f hf).1

/-- Witness for C10 at a concrete input: the valid 14-byte frame
`frame1234` decodes successfully. -/
theorem decodeFrame_total_on_frames_witness :
    (decodeFrame frame1234).isSome = true :=
  decodeFrame_total_on_frames.1 frame1234 (by decide)

/-- Claim C7: the synthetic valid frame `frame1234` (digits 1,2,3,4,
decimal point at the tenths position, DC, Volt, positive sign, no prefix
flags) decodes to value 123.4, value string "123.4", unit "V", mode "DC". -/
theorem decode_roundtrip_1234 :
    decodeFrame frame1234 =
      some { value := some ((1234 : ℚ) / 10), valueStr := "123.4",
             unit := "V", mode := "DC", auto := false, hold := false,
             rel := false, lowBatt := false,
             rawHex := "14 20 35 45 5B 61 7F 8A 97 A0 B0 C0 D4 E0" } ∧
    (1234 : ℚ) / 10 = 123.4 := by
  constructor
  · simp +decide [decodeFrame, decode14, numericOf, digitsOf, digitBytesOf,
      digitByte, parseDigit, intvalOf, signOf, divOf, applyPrefixScale,
      valueStrOf, fullUnitOf, unitBaseOf, prefixLetterOf, isCelsiusOf,
      modeOf, autoOf, holdOf, relOf, lowBattOf, digitChar, rawHexOf,
      hexByte, hexDigit, frame1234, Measurement.mk.injEq]
  · norm_num

/-- Claim C3: `GetStatus` reports connected exactly when the last-frame
timestamp is non-zero, not older than the staleness threshold, and the
last error is empty; `connected` is recomputed from those fields, so the
stored flag is irrelevant; and the threshold defaults to 3 s. -/
theorem getStatus_connected_iff (m : Manager) (now : Int) :
    ((getStatus m now).connected = true ↔
      (m.status.lastFrameAt ≠ 0 ∧
        now - m.status.lastFrameAt ≤ m.staleAfter ∧
        m.status.lastError = "")) ∧
    (∀ c : Bool,
      getStatus { m with status := { m.status with connected := c } } now =
        getStatus m now) ∧
    (getStatus m now).port = m.status.port ∧
    (getStatus m now).baud = m.status.baud ∧
    (getStatus m now).lastFrameAt = m.status.lastFrameAt ∧
    (getStatus m now).lastError = m.status.lastError ∧
    (newManager 0).staleAfter = 3000000000 := by
  obtain ⟨r, hcn, sa, p, bd, cn, lf, le⟩ := m
  refine ⟨?_, fun c => rfl, ?_, ?_, ?_, ?_, by rfl⟩ <;>
    simp only [getStatus] <;> split_ifs with h <;> simp_all

/-- Claim C4 as amended: `Start` always returns nil, cancels a previously
running loop, resets `last_error` to empty and the stored connected flag
to false, installs the new port/baud — but leaves the liveness timestamp
`last_frame_at` unchanged rather than zeroing it. -/
theorem start_resets_error_not_timestamp (m : Manager) (port : String)
    (baud : Int) :
    (start m port baud).err = none ∧
    (start m port baud).cancelledPrev = (m.running && m.hasCancel) ∧
    (start m port baud).mgr.status.lastError = "" ∧
    (start m port baud).mgr.status.connected = false ∧
    (start m port baud).mgr.status.lastFrameAt = m.status.lastFrameAt ∧
    (start m port baud).mgr.status.port = port ∧
    (start m port baud).mgr.status.baud = baud ∧
    (start m port baud).mgr.running = true ∧
    (start m port baud).mgr.hasCancel = true ∧
    (start m port baud).mgr.staleAfter = m.staleAfter := by
  simp [start]

/-- A manager with a running loop and a recent accepted frame
(`last_frame_at` = 1000 ns), used as concrete counterexample state. -/
def mgrRecentFrame : Manager :=
  { running := true
    hasCancel := true
    staleAfter := 3000000000
    status := { port := "/dev/ttyUSB0", baud := 2400, connected := true,
                lastFrameAt := 1000, lastError := "" } }

/-- Counterexample to claim C4 as stated: starting from a state whose
liveness timestamp is 1000, `Start` leaves `last_frame_at` at 1000 — it
does not zero it for the new target. -/
theorem start_counterexample :
    (start mgrRecentFrame "COM4" 9600).mgr.status.lastFrameAt = 1000 ∧
    (1000 : Int) ≠ 0 := by
  constructor
  · rfl
  · decide

/-- Claim C9 as amended: `Stop` invokes the cancel function of the active
loop (when one is installed), clears `running` and the stored connected
flag — but `GetStatus` recomputes `connected` from the liveness fields,
so right after `Stop` it still reports `true` until the staleness
threshold has elapsed (or an error is recorded / no frame was ever
received). -/
theorem stop_cancels_but_status_recomputed (m : Manager) (now : Int) :
    (stop m).cancelled = m.hasCancel ∧
    (stop m).mgr.running = false ∧
    (stop m).mgr.status.connected = false ∧
    ((getStatus (stop m).mgr now).connected = true ↔
      (m.status.lastFrameAt ≠ 0 ∧
        now - m.status.lastFrameAt ≤ m.staleAfter ∧
        m.status.lastError = "")) := by
  obtain ⟨r, hcn, sa, p, bd, cn, lf, le⟩ := m
  refine ⟨rfl, rfl, rfl, ?_⟩
  simp only [stop, getStatus]
  split_ifs with h <;> simp_all

/-- Counterexample to claim C9 as stated: with a loop running and a frame
accepted at time 1000, calling `Stop` and then `GetStatus` at the same
instant reports `connected = true`, not `false`. -/
theorem stop_counterexample :
    (stop mgrRecentFrame).cancelled = true ∧
    (getStatus (stop mgrRecentFrame).mgr 1000).connected = true := by
  constructor
  · rfl
  · rfl

/-- Claim C5 as amended: a mid-stream I/O read error closes the device
handle and, after a fixed 400 ms backoff, control returns to Connecting
(the remaining script is processed by the outer reconnect loop) — but the
error text is never recorded in `last_error`: the read error is swallowed
by the reconnect loop, `RunLoop` only ever returns `context.Canceled`,
and the manager goroutine ignores that value. -/
theorem stream_error_closes_and_reconnects (reads : List ReadEvent)
    (msg : String) (rest : List Session) (lastError : String) :
    (runLoopGo (Session.stream reads msg :: rest)).closes =
      (runLoopGo rest).closes + 1 ∧
    (runLoopGo (Session.stream reads msg :: rest)).backoffsMs =
      400 :: (runLoopGo rest).backoffsMs ∧
    (runLoopGo (Session.stream reads msg :: rest)).retErr = ctxCanceled ∧
    recordAfterRunLoop lastError
      (runLoopGo (Session.stream reads msg :: rest)).retErr = lastError := by
  refine ⟨by simp [runLoopGo], by simp [runLoopGo], ?_, ?_⟩
  · exact runLoopGo_retErr _
  · rw [runLoopGo_retErr]
    simp [recordAfterRunLoop]

/-- Counterexample to claim C5 as stated: a streaming session ending in
the I/O error "input/output error" leaves `last_error` empty — the error
text is not surfaced to status readers. -/
theorem stream_error_counterexample :
    recordAfterRunLoop ""
      (runLoopGo [Session.stream [] "input/output error"]).retErr = "" ∧
    (runLoopGo [Session.stream [] "input/output error"]).closes = 1 ∧
    ("" : String) ≠ "input/output error" := by
  refine ⟨rfl, rfl, by decide⟩

/-- The overall scale factor that the five sequential prefix `if`s apply:
the product of the factors of all set flags (nano ÷1e9, micro ÷1e6,
milli ÷1e3, kilo ×1e3, mega ×1e6). -/
def prefixScaleFactor (b9 b10 : Nat) : ℚ :=
  (if b9 &&& 4 ≠ 0 then (1 : ℚ) / 1000000000 else 1) *
  (if b9 &&& 8 ≠ 0 then (1 : ℚ) / 1000000 else 1) *
  (if b10 &&& 8 ≠ 0 then (1 : ℚ) / 1000 else 1) *
  (if b9 &&& 2 ≠ 0 then (1000 : ℚ) else 1) *
  (if b10 &&& 2 ≠ 0 then (1000000 : ℚ) else 1)

lemma applyPrefixScale_eq (v : ℚ) (b9 b10 : Nat) :
    applyPrefixScale v b9 b10 = v * prefixScaleFactor b9 b10 := by
  simp only [applyPrefixScale, prefixScaleFactor]
  split_ifs <;> ring

/-- Claim C2 as amended: the decoder applies the scale factor of every set
prefix flag, cumulatively — the numeric value is the signed digit value
divided by the decimal-point divisor, multiplied by the product of the
factors of all set flags; no priority selects a single one (only the
displayed prefix letter does). -/
theorem prefix_flags_apply_cumulatively
    (x0 x1 x2 x3 x4 x5 x6 x7 x8 x9 x10 x11 x12 x13 : Nat) :
    (decode14 x0 x1 x2 x3 x4 x5 x6 x7 x8 x9 x10 x11 x12 x13).value =
      (if numericOf x1 x2 x3 x4 x5 x6 x7 x8 then
        some ((intvalOf x1 x2 x3 x4 x5 x6 x7 x8 : ℚ) / divOf x3 x5 x7 *
          signOf x1 * prefixScaleFactor x9 x10)
      else none) := by
  simp only [decode14]
  by_cases h : numericOf x1 x2 x3 x4 x5 x6 x7 x8 <;>
    simp [h, applyPrefixScale_eq]

/-- A valid frame showing digits 1111 with both the nano flag (byte9 bit2)
and the micro flag (byte9 bit3) set, and the Volt unit. -/
def frameNanoMicro : List Nat :=
  [0x10, 0x20, 0x35, 0x40, 0x55, 0x60, 0x75, 0x80, 0x95,
   0xAC, 0xB0, 0xC0, 0xD4, 0xE0]

/-- Counterexample to claim C2 as stated: with both nano and micro set the
decoder divides by 1e9 AND by 1e6 (value 1111/1e15), not by the single
highest-priority factor 1e9 (which would give 1111/1e9). -/
theorem prefix_priority_counterexample :
    (decodeFrame frameNanoMicro).map (fun m => m.value) =
      some (some ((1111 : ℚ) / 1000000000000000)) ∧
    ((1111 : ℚ) / 1000000000000000) ≠ (1111 : ℚ) / 1000000000 := by
  constructor
  · simp +decide [decodeFrame, decode14, frameNanoMicro, numericOf,
      digitsOf, digitBytesOf, digitByte, parseDigit, intvalOf, signOf,
      divOf, applyPrefixScale]
    norm_num
  · norm_num

/-- Claim C6: whenever one of the four digit patterns is unrecognized, the
Measurement's value is absent, its display string is the fixed 4-character
placeholder "????", and unit, mode and the auto/hold/rel/low-battery flags
are still the ones computed from the flag bits, independent of the digit
bytes. -/
theorem nonnumeric_gives_placeholder
    (x0 x1 x2 x3 x4 x5 x6 x7 x8 x9 x10 x11 x12 x13 : Nat)
    (h : numericOf x1 x2 x3 x4 x5 x6 x7 x8 = false) :
    (decode14 x0 x1 x2 x3 x4 x5 x6 x7 x8 x9 x10 x11 x12 x13).value = none ∧
    (decode14 x0 x1 x2 x3 x4 x5 x6 x7 x8 x9 x10 x11 x12 x13).valueStr =
      "????" ∧
    ("????" : String).length = 4 ∧
    (decode14 x0 x1 x2 x3 x4 x5 x6 x7 x8 x9 x10 x11 x12 x13).unit =
      fullUnitOf x9 x10 x11 x12 x13 ∧
    (decode14 x0 x1 x2 x3 x4 x5 x6 x7 x8 x9 x10 x11 x12 x13).mode =
      modeOf x0 x13 ∧
    (decode14 x0 x1 x2 x3 x4 x5 x6 x7 x8 x9 x10 x11 x12 x13).auto =
      autoOf x0 ∧
    (decode14 x0 x1 x2 x3 x4 x5 x6 x7 x8 x9 x10 x11 x12 x13).hold =
      holdOf x11 ∧
    (decode14 x0 x1 x2 x3 x4 x5 x6 x7 x8 x9 x10 x11 x12 x13).rel =
      relOf x11 ∧
    (decode14 x0 x1 x2 x3 x4 x5 x6 x7 x8 x9 x10 x11 x12 x13).lowBatt =
      lowBattOf x12 := by
  refine ⟨?_, ?_, by decide, rfl, rfl, rfl, rfl, rfl, rfl⟩
  · simp [decode14, h]
  · simp [decode14, valueStrOf, h]

/-- Witness for C6 at a concrete input: a tagged frame whose digit bytes
are all 0x00 (not a 7-segment pattern) decodes to an absent value with the
"????" placeholder and the Volt unit from the flag bits. -/
theorem nonnumeric_gives_placeholder_witness :
    (decode14 0x10 0x20 0x30 0x40 0x50 0x60 0x70 0x80 0x90 0xA0 0xB0 0xC0
      0xD4 0xE0).value = none ∧
    (decode14 0x10 0x20 0x30 0x40 0x50 0x60 0x70 0x80 0x90 0xA0 0xB0 0xC0
      0xD4 0xE0).valueStr = "????" ∧
    (decode14 0x10 0x20 0x30 0x40 0x50 0x60 0x70 0x80 0x90 0xA0 0xB0 0xC0
      0xD4 0xE0).unit = fullUnitOf 0xA0 0xB0 0xC0 0xD4 0xE0 :=
  ⟨(nonnumeric_gives_placeholder 0x10 0x20 0x30 0x40 0x50 0x60 0x70 0x80
      0x90 0xA0 0xB0 0xC0 0xD4 0xE0 (by decide)).1,
   (nonnumeric_gives_placeholder 0x10 0x20 0x30 0x40 0x50 0x60 0x70 0x80
      0x90 0xA0 0xB0 0xC0 0xD4 0xE0 (by decide)).2.1,
   (nonnumeric_gives_placeholder 0x10 0x20 0x30 0x40 0x50 0x60 0x70 0x80
      0x90 0xA0 0xB0 0xC0 0xD4 0xE0 (by decide)).2.2.2.1⟩

/-- Claim C8 as amended: the unit string is the base unit with the single
selected prefix letter appended (priority mega > kilo > milli > micro >
nano), except that "", "%" and "°C" never take a prefix — and the
resulting string "MV" is displayed as "mV", so a mega-flagged Volt frame
yields "mV", not the mega-prefixed unit. -/
theorem unit_prefix_with_mv_normalization (x9 x10 x11 x12 x13 : Nat) :
    (fullUnitOf x9 x10 x11 x12 x13 =
      (if unitBaseOf x10 x11 x12 x13 = "" ∨ unitBaseOf x10 x11 x12 x13 = "%" ∨
          unitBaseOf x10 x11 x12 x13 = "°C" then
        unitBaseOf x10 x11 x12 x13
      else if prefixLetterOf x9 x10 ++ unitBaseOf x10 x11 x12 x13 = "MV" then
        "mV"
      else prefixLetterOf x9 x10 ++ unitBaseOf x10 x11 x12 x13)) ∧
    (∀ y0 y1 y2 y3 y4 y5 y6 y7 y8 : Nat,
      (decode14 y0 y1 y2 y3 y4 y5 y6 y7 y8 x9 x10 x11 x12 x13).unit =
        fullUnitOf x9 x10 x11 x12 x13) := by
  refine ⟨?_, fun y0 y1 y2 y3 y4 y5 y6 y7 y8 => rfl⟩
  by_cases h1 : unitBaseOf x10 x11 x12 x13 = ""
  · simp [fullUnitOf, h1]
  · by_cases h2 : unitBaseOf x10 x11 x12 x13 = "%"
    · simp +decide [fullUnitOf, h1, h2]
    · by_cases h3 : unitBaseOf x10 x11 x12 x13 = "°C"
      · simp +decide [fullUnitOf, h1, h2, h3]
      · simp [fullUnitOf, h1, h2, h3]

/-- A valid frame showing digits 1111 with the mega flag (byte10 bit1) and
the Volt unit (byte12 bit2). -/
def frameMegaVolt : List Nat :=
  [0x10, 0x20, 0x35, 0x40, 0x55, 0x60, 0x75, 0x80, 0x95,
   0xA0, 0xB2, 0xC0, 0xD4, 0xE0]

/-- Counterexample to claim C8 as stated: a frame with the mega flag and
the Volt unit decodes to unit "mV" (the "MV" string is normalized to
"mV"), not the mega-prefixed volt unit "MV". -/
theorem mega_volt_counterexample :
    (decodeFrame frameMegaVolt).map (fun m => m.unit) = some "mV" ∧
    ("mV" : String) ≠ "MV" := by
  refine ⟨rfl, by decide⟩

end HP90
